import Mathlib

/-!
Verification of the ICM20948 auxiliary-bus bridge and bring-up scripts.

The definitions below are shallow embeddings of the Python sources:
register writes become explicit `(register, value)` trace entries, the
hardware's responses become oracle functions `Nat → Nat` (value returned by
the status or data-in register on the n-th read), and the polling loops
become structural recursion on the remaining iteration count of their
`for i in range(n)` headers.
-/

/-! ## Register constants (shared across the scripts) -/

def REG_BANK_SEL : Nat := 0x7F

def PWR_MGMT_1 : Nat := 0x06

def I2C_MST_STATUS : Nat := 0x17

def I2C_SLV4_ADDR : Nat := 0x13

def I2C_SLV4_REG : Nat := 0x14

def I2C_SLV4_CTRL : Nat := 0x15

def I2C_SLV4_DO : Nat := 0x16

def I2C_SLV4_DI : Nat := 0x17

def ICM20948_ADDR : Nat := 0x68

def AK09916_I2C_ADDR : Nat := 0x0C

def BIT_SLAVE_EN : Nat := 0x80

/-! ## Raw-to-signed sample decoding

`test-mag-bypass.py` lines 117-125 (and `simple-mag-test.py` lines 253-259)
combine two raw bytes into a 16-bit word and fold it into a signed value:
`v = (high << 8) | low; if v > 32767: v -= 65536`. -/

/-- Embedding of the raw-to-signed conversion of `test-mag-bypass.py`:
`hx = (data[1] << 8) | data[0]` followed by `if hx > 32767: hx -= 65536`. -/
def toSigned16 (high low : Nat) : Int :=
  let v : Nat := (high <<< 8) ||| low
  if v > 32767 then (v : Int) - 65536 else (v : Int)

/-! ## Bank caching

`test-all-sensors-debug.py` lines 62-68: `set_bank` writes the bank-select
register only when the requested bank differs from the cached `current_bank`
(initially `None`), then updates the cache. The result below is the new
cache value together with the list of values written to `REG_BANK_SEL`
by this one call. -/

/-- Embedding of `set_bank` from `test-all-sensors-debug.py`: returns the
updated `current_bank` cache and the bank-select writes this call issued. -/
def set_bank_cached (cache : Option Nat) (bank : Nat) : Option Nat × List Nat :=
  if cache ≠ some bank then (some bank, [bank <<< 4]) else (cache, [])

/-! Sanity examples. -/

example : toSigned16 0xFF 0xFF = -1 := by decide

example : toSigned16 0x80 0x00 = -32768 := by decide

example : toSigned16 0x12 0x34 = 0x1234 := by decide

example : set_bank_cached none 3 = (some 3, [0x30]) := by decide

example : set_bank_cached (some 3) 3 = (some 3, []) := by decide

/-- Claim C10: for raw bytes `low, high` in 0..255 the decoding step
`v = (high << 8) | low; if v > 32767: v -= 65536` equals the two's-complement
signed interpretation of the 16-bit word (balanced residue of
`high * 256 + low` modulo 2^16) and lies in [-32768, 32767]. -/
theorem toSigned16_twos_complement (high low : Nat)
    (hh : high ≤ 255) (hl : low ≤ 255) :
    toSigned16 high low = Int.bmod (high * 256 + low) 65536 ∧
    -32768 ≤ toSigned16 high low ∧ toSigned16 high low ≤ 32767 := by
  have hor : (high <<< 8) ||| low = high * 256 + low := by
    have h1 : high <<< 8 = 2 ^ 8 * high := by
      rw [Nat.shiftLeft_eq]; ring
    have h2 : low < 2 ^ 8 := by omega
    rw [h1, ← Nat.mul_add_lt_is_or h2 high]
    ring_nf
  have hv : toSigned16 high low =
      if high * 256 + low > 32767
      then ((high * 256 + low : Nat) : Int) - 65536
      else ((high * 256 + low : Nat) : Int) := by
    unfold toSigned16
    simp only [hor]
  refine ⟨?_, ?_, ?_⟩
  · rw [hv, Int.bmod_def]
    split_ifs <;> push_cast <;> omega
  · rw [hv]
    split_ifs <;> push_cast <;> omega
  · rw [hv]
    split_ifs <;> push_cast <;> omega

/-- Witness for C10 at the concrete bytes `high = 0x80`, `low = 0x00`. -/
theorem toSigned16_twos_complement_witness :
    toSigned16 0x80 0x00 = Int.bmod (0x80 * 256 + 0x00) 65536 ∧
    -32768 ≤ toSigned16 0x80 0x00 ∧ toSigned16 0x80 0x00 ≤ 32767 :=
  toSigned16_twos_complement 0x80 0x00 (by decide) (by decide)

/-- Claim C5: for every bank `n` in 0..3, calling `set_bank` twice in a row
with the same `n` issues at most one underlying bank-select write (the second
call issues none), and a call whose argument differs from the cached bank
issues exactly one write of `n << 4` and updates the cache to `n`. -/
theorem set_bank_cached_idempotent (n : Nat) (_hn : n ≤ 3) (cache : Option Nat) :
    (set_bank_cached (set_bank_cached cache n).1 n).2 = [] ∧
    (set_bank_cached cache n).2.length +
      (set_bank_cached (set_bank_cached cache n).1 n).2.length ≤ 1 ∧
    (cache ≠ some n → set_bank_cached cache n = (some n, [n <<< 4])) := by
  by_cases h : cache = some n
  · subst h
    simp [set_bank_cached]
  · simp [set_bank_cached, h]

/-- Witness for C5 at `n = 2` starting from the invalid cache `none`. -/
theorem set_bank_cached_idempotent_witness :
    (set_bank_cached (set_bank_cached none 2).1 2).2 = [] ∧
    (set_bank_cached none 2).2.length +
      (set_bank_cached (set_bank_cached none 2).1 2).2.length ≤ 1 ∧
    (none ≠ some 2 → set_bank_cached none 2 = (some 2, [2 <<< 4])) :=
  set_bank_cached_idempotent 2 (by decide) none

/-! ## One-shot poll loop (`test_slv4_read`)

`try-all-sequences.py` lines 53-68 (an identical loop, parameterized by the
downstream address and register, sits at `test-all-sensors-i2c-master.py`
lines 72-87): after programming the one-shot lane the code runs

    for i in range(50):
        time.sleep(0.01)
        status = read_reg(I2C_MST_STATUS)
        if status & 0x40:
            data = read_reg(I2C_SLV4_DI)
            return (True, data, (i+1)*10)
    return (False, 0x00, 500)

The hardware is modelled by oracles: `status j` is the value the (j+1)-th
read of `I2C_MST_STATUS` returns, `di j` the value `I2C_SLV4_DI` would
return at that point. The second component of the result counts how many
times the status register was read. -/

/-- The poll loop of `test_slv4_read`, structurally recursing on the
remaining iteration count `fuel`; `i` is the current loop index. -/
def slv4Poll (status di : Nat → Nat) : Nat → Nat → (Bool × Nat × Nat) × Nat
  | 0, _ => ((false, 0x00, 500), 0)
  | fuel + 1, i =>
    if status i &&& 0x40 ≠ 0 then
      ((true, di i, (i + 1) * 10), 1)
    else
      let r := slv4Poll status di fuel (i + 1)
      (r.1, r.2 + 1)

/-- Embedding of `test_slv4_read`'s polling phase (the lane-programming
writes that precede it are covered by `write_mag_reg_via_slv4` /
`test_slv4_write_trace` below): 50 polls starting at index 0. -/
def test_slv4_read (status di : Nat → Nat) : (Bool × Nat × Nat) × Nat :=
  slv4Poll status di 50 0

/-- If the completion bit first appears on the `(k+1)`-th poll of the window
and the window is long enough, the loop returns success with the data-in
byte, the elapsed-time report of that poll, and exactly `k+1` status reads. -/
theorem slv4Poll_done (status di : Nat → Nat) :
    ∀ fuel i k, k < fuel →
    (∀ j, j < k → status (i + j) &&& 0x40 = 0) →
    status (i + k) &&& 0x40 ≠ 0 →
    slv4Poll status di fuel i = ((true, di (i + k), (i + k + 1) * 10), k + 1) := by
  intro fuel
  induction fuel with
  | zero => intro i k hk; omega
  | succ f ih =>
    intro i k hk hbefore hdone
    cases k with
    | zero =>
      simp only [Nat.add_zero] at hdone
      simp [slv4Poll, hdone]
    | succ k' =>
      have h0 : status i &&& 0x40 = 0 := by
        have := hbefore 0 (Nat.succ_pos k')
        simpa using this
      have hidx : i + 1 + k' = i + (k' + 1) := by omega
      have hrec := ih (i + 1) k' (by omega)
        (fun j hj => by
          have := hbefore (j + 1) (by omega)
          simpa [Nat.add_assoc, Nat.add_comm 1 j] using this)
        (by rw [hidx]; exact hdone)
      rw [hidx] at hrec
      simp [slv4Poll, h0, hrec]

/-- If the completion bit stays clear for the whole window, the loop returns
the timeout triple `(False, 0x00, 500)` after reading the status register
once per iteration. -/
theorem slv4Poll_timeout (status di : Nat → Nat) :
    ∀ fuel i, (∀ j, j < fuel → status (i + j) &&& 0x40 = 0) →
    slv4Poll status di fuel i = ((false, 0x00, 500), fuel) := by
  intro fuel
  induction fuel with
  | zero => intro i _; rfl
  | succ f ih =>
    intro i h
    have h0 : status i &&& 0x40 = 0 := by
      have := h 0 (Nat.succ_pos f)
      simpa using this
    have hrec := ih (i + 1) (fun j hj => by
      have := h (j + 1) (by omega)
      simpa [Nat.add_assoc, Nat.add_comm 1 j] using this)
    simp [slv4Poll, h0, hrec]

/-- Claim C2: if the transaction-status register first has its completion bit
(0x40) set on the K-th poll (1 ≤ K ≤ 50), `test_slv4_read` returns success
with the byte read from `I2C_SLV4_DI` and elapsed time `K*10` ms, and it
reads the status register exactly K times. -/
theorem test_slv4_read_completes_on_poll_K (status di : Nat → Nat) (K : Nat)
    (h1 : 1 ≤ K) (h2 : K ≤ 50)
    (hbefore : ∀ j, j < K - 1 → status j &&& 0x40 = 0)
    (hK : status (K - 1) &&& 0x40 ≠ 0) :
    test_slv4_read status di = ((true, di (K - 1), K * 10), K) := by
  have h := slv4Poll_done status di 50 0 (K - 1) (by omega)
    (fun j hj => by simpa using hbefore j hj)
    (by simpa using hK)
  rw [test_slv4_read, h]
  have : K - 1 + 1 = K := by omega
  simp [this]

/-- Witness for C2: the completion bit first appears on poll K = 3. -/
theorem test_slv4_read_completes_on_poll_K_witness :
    test_slv4_read (fun i => if i < 2 then 0x00 else 0x40) (fun _ => 0x48) =
      ((true, 0x48, 3 * 10), 3) :=
  test_slv4_read_completes_on_poll_K
    (fun i => if i < 2 then 0x00 else 0x40) (fun _ => 0x48) 3
    (by decide) (by decide) (by decide) (by decide)

/-- Claim C3: if the status register never has the completion bit (0x40) set,
`test_slv4_read` returns the failure triple `(False, 0x00, 500)` — data byte
0x00, 500 ms reported — after exactly 50 polls, not fewer or more. -/
theorem test_slv4_read_timeout (status di : Nat → Nat)
    (h : ∀ j, status j &&& 0x40 = 0) :
    test_slv4_read status di = ((false, 0x00, 500), 50) :=
  slv4Poll_timeout status di 50 0 (fun j _ => by simpa using h j)

/-- Witness for C3: a status register that always reads 0x00. -/
theorem test_slv4_read_timeout_witness :
    test_slv4_read (fun _ => 0x00) (fun _ => 0x48) = ((false, 0x00, 500), 50) :=
  test_slv4_read_timeout (fun _ => 0x00) (fun _ => 0x48) (by intro j; simp)

/-! ## Completion poll loop with arbitration-lost classification

`debug-i2c-master.py` lines 136-150:

    for i in range(30):
        time.sleep(0.01)
        i2c_mst_status = read_reg(I2C_MST_STATUS)
        if i2c_mst_status & 0x40:   # SLV4_DONE
            done = True
            break
        if i2c_mst_status & 0x10:   # LOST_ARB
            break
    if not done: ... timeout after 300ms

One status read per iteration serves both checks; the completion check comes
first. -/

/-- Outcome of the `SLV4_DONE` poll loop of `debug-i2c-master.py`. -/
inductive PollOutcome where
  | done (ms : Nat)
  | arbLost (ms : Nat)
  | timedOut
deriving DecidableEq, Repr

/-- Embedding of the `SLV4_DONE` poll loop body: recursion on the remaining
iteration count, returning the classified outcome and the number of status
reads performed. -/
def slv4DonePoll (status : Nat → Nat) : Nat → Nat → PollOutcome × Nat
  | 0, _ => (.timedOut, 0)
  | fuel + 1, i =>
    if status i &&& 0x40 ≠ 0 then
      (.done ((i + 1) * 10), 1)
    else if status i &&& 0x10 ≠ 0 then
      (.arbLost ((i + 1) * 10), 1)
    else
      let r := slv4DonePoll status fuel (i + 1)
      (r.1, r.2 + 1)

/-- The full loop: 30 polls (the script's 300 ms window) starting at index 0. -/
def debugPollLoop (status : Nat → Nat) : PollOutcome × Nat :=
  slv4DonePoll status 30 0

/-- If neither bit is seen before index `i + k`, the completion bit is still
clear at `i + k` but arbitration-lost is set there, the loop stops at that
poll and classifies the transaction as arbitration lost. -/
theorem slv4DonePoll_arb (status : Nat → Nat) :
    ∀ fuel i k, k < fuel →
    (∀ j, j < k → status (i + j) &&& 0x40 = 0 ∧ status (i + j) &&& 0x10 = 0) →
    status (i + k) &&& 0x40 = 0 →
    status (i + k) &&& 0x10 ≠ 0 →
    slv4DonePoll status fuel i = (.arbLost ((i + k + 1) * 10), k + 1) := by
  intro fuel
  induction fuel with
  | zero => intro i k hk; omega
  | succ f ih =>
    intro i k hk hbefore hnd harb
    cases k with
    | zero =>
      simp only [Nat.add_zero] at hnd harb
      simp [slv4DonePoll, hnd, harb]
    | succ k' =>
      have h0 := hbefore 0 (Nat.succ_pos k')
      simp only [Nat.add_zero] at h0
      have hidx : i + 1 + k' = i + (k' + 1) := by omega
      have hrec := ih (i + 1) k' (by omega)
        (fun j hj => by
          have := hbefore (j + 1) (by omega)
          simpa [Nat.add_assoc, Nat.add_comm 1 j] using this)
        (by rw [hidx]; exact hnd)
        (by rw [hidx]; exact harb)
      rw [hidx] at hrec
      simp [slv4DonePoll, h0.1, h0.2, hrec]

/-- Claim C4: if the arbitration-lost bit (0x10) becomes set before the
completion bit (0x40) — first observed on poll index `k` within the window,
with completion still clear through poll `k` — the loop stops polling at that
poll (exactly `k+1` status reads), classifies the transaction as an
arbitration-lost failure, and does not return success. -/
theorem debugPollLoop_arb_lost (status : Nat → Nat) (k : Nat)
    (hk : k < 30)
    (hbefore : ∀ j, j < k → status j &&& 0x40 = 0 ∧ status j &&& 0x10 = 0)
    (hnd : status k &&& 0x40 = 0)
    (harb : status k &&& 0x10 ≠ 0) :
    debugPollLoop status = (.arbLost ((k + 1) * 10), k + 1) ∧
    ∀ ms, (debugPollLoop status).1 ≠ PollOutcome.done ms := by
  have h := slv4DonePoll_arb status 30 0 k hk
    (fun j hj => by simpa using hbefore j hj)
    (by simpa using hnd) (by simpa using harb)
  rw [debugPollLoop] at *
  refine ⟨by simpa using h, ?_⟩
  intro ms
  rw [h]
  simp

/-- Witness for C4: arbitration lost is first seen on the third poll
(index 2), completion never. -/
theorem debugPollLoop_arb_lost_witness :
    debugPollLoop (fun i => if i < 2 then 0x00 else 0x10) =
      (.arbLost ((2 + 1) * 10), 2 + 1) ∧
    ∀ ms, (debugPollLoop (fun i => if i < 2 then 0x00 else 0x10)).1 ≠
      PollOutcome.done ms :=
  debugPollLoop_arb_lost (fun i => if i < 2 then 0x00 else 0x10) 2
    (by decide) (by decide) (by decide) (by decide)

/-! ## Bring-up sequencer (module-level loop of `try-all-sequences.py`)

Lines 144-184:

    for seq in sequences:
        for step_name, step_func in seq['steps']:
            try: step_func()
            except Exception as e: print(ERROR); break
        success, data, ms = test_slv4_read()
        if success and data == 0x48: ...; break       # pass, stop
        elif success: ...                             # wrong identity
        else: ...                                     # timeout
    else:
        ... report that none of the sequences worked

A recipe's interaction with the hardware is modelled by the outcome of each
of its steps (`true` = the step ran without raising) and by the status /
data-in oracles its verification `test_slv4_read` call observes. -/

/-- One candidate bring-up recipe together with the hardware's responses:
`steps j = true` iff the j-th step runs without raising an exception;
`status` / `di` drive the verification `test_slv4_read` call. -/
structure RecipeRun where
  steps : List Bool
  status : Nat → Nat
  di : Nat → Nat

/-- Number of steps the inner `for step_name, step_func` loop executes: every
step up to and including the first one that raises (`false`), all of them
when none raises. -/
def executedSteps : List Bool → Nat
  | [] => 0
  | ok :: rest => if ok then 1 + executedSteps rest else 1

/-- Outcome the module-level loop assigns to one recipe's verification read. -/
inductive SeqOutcome where
  | pass (data ms : Nat)
  | wrongId (data ms : Nat)
  | timeout (ms : Nat)
deriving DecidableEq, Repr

/-- The `if success and data == 0x48 / elif success / else` classification of
a `test_slv4_read` result. -/
def classify : Bool × Nat × Nat → SeqOutcome
  | (true, d, ms) => if d = 0x48 then .pass d ms else .wrongId d ms
  | (false, _, ms) => .timeout ms

/-- Whether an outcome is the passing one (the loop `break`s on it). -/
def SeqOutcome.isPass : SeqOutcome → Bool
  | .pass _ _ => true
  | _ => false

/-- Outcome of one recipe's verification read, as the loop computes it. -/
def verifyOutcome (r : RecipeRun) : SeqOutcome :=
  classify (test_slv4_read r.status r.di).1

/-- The module-level recipe loop: returns the position and outcome of the
first passing recipe (`Sum.inl`) or, when none passes, the list of every
recipe's failure outcome (`Sum.inr`), mirroring the `for ... else` shape. -/
def runAll : List RecipeRun → (Nat × SeqOutcome) ⊕ List SeqOutcome
  | [] => .inr []
  | r :: rs =>
    match verifyOutcome r with
    | .pass d ms => .inl (0, .pass d ms)
    | o =>
      match runAll rs with
      | .inl (i, oo) => .inl (i + 1, oo)
      | .inr fs => .inr (o :: fs)

/-- Trace of the loop: for each recipe that is attempted, how many of its
steps execute. The loop `break`s right after the first passing recipe. -/
def runTrace : List RecipeRun → List Nat
  | [] => []
  | r :: rs =>
    executedSteps r.steps ::
      match verifyOutcome r with
      | .pass _ _ => []
      | _ => runTrace rs

/-- Claim C1: the sequencer tries recipes in order and accepts the first one
whose verification read completes with identity 0x48: it reports that
recipe's position and passing outcome and executes no later recipe's steps;
a completed read with any other value classifies as `wrongId`, not a pass;
and when no recipe passes it reports a failure outcome (timeout or wrong
identity) for every recipe. -/
theorem runAll_first_pass_spec :
    (∀ pre r post d ms,
      (∀ q ∈ pre, (verifyOutcome q).isPass = false) →
      verifyOutcome r = .pass d ms →
      runAll (pre ++ r :: post) = .inl (pre.length, .pass d ms) ∧
      runTrace (pre ++ r :: post) =
        (pre ++ [r]).map (fun q => executedSteps q.steps)) ∧
    (∀ d ms, d ≠ 0x48 →
      classify (true, d, ms) = .wrongId d ms ∧
      (classify (true, d, ms)).isPass = false) ∧
    (∀ recipes,
      (∀ q ∈ recipes, (verifyOutcome q).isPass = false) →
      runAll recipes = .inr (recipes.map verifyOutcome) ∧
      ∀ o ∈ recipes.map verifyOutcome,
        (∃ ms, o = .timeout ms) ∨ (∃ dd ms, o = .wrongId dd ms)) := by
  refine ⟨?_, ?_, ?_⟩
  · intro pre
    induction pre with
    | nil =>
      intro r post d ms _ hpass
      constructor
      · simp [runAll, hpass]
      · simp [runTrace, hpass]
    | cons q pre ih =>
      intro r post d ms hall hpass
      have hq : (verifyOutcome q).isPass = false := hall q (by simp)
      have hrest := ih r post d ms (fun p hp => hall p (by simp [hp])) hpass
      cases hvq : verifyOutcome q with
      | pass dd mms => rw [hvq] at hq; simp [SeqOutcome.isPass] at hq
      | wrongId dd mms =>
        constructor
        · simp only [List.cons_append, runAll, List.append_eq, hvq, hrest.1, List.length_cons]
        · simp only [List.cons_append, runTrace, List.append_eq, hvq, hrest.2, List.map_cons]
      | timeout mms =>
        constructor
        · simp only [List.cons_append, runAll, List.append_eq, hvq, hrest.1, List.length_cons]
        · simp only [List.cons_append, runTrace, List.append_eq, hvq, hrest.2, List.map_cons]
  · intro d ms hd
    constructor
    · simp [classify, hd]
    · simp [classify, hd, SeqOutcome.isPass]
  · intro recipes
    induction recipes with
    | nil => intro _; exact ⟨rfl, by simp⟩
    | cons q rs ih =>
      intro hall
      have hq : (verifyOutcome q).isPass = false := hall q (by simp)
      have hrest := ih (fun p hp => hall p (by simp [hp]))
      have houtcome : (∃ ms, verifyOutcome q = .timeout ms) ∨
          (∃ dd ms, verifyOutcome q = .wrongId dd ms) := by
        cases hvq : verifyOutcome q with
        | pass dd mms => rw [hvq] at hq; simp [SeqOutcome.isPass] at hq
        | wrongId dd mms => exact Or.inr ⟨dd, mms, rfl⟩
        | timeout mms => exact Or.inl ⟨mms, rfl⟩
      constructor
      · cases hvq : verifyOutcome q with
        | pass dd mms => rw [hvq] at hq; simp [SeqOutcome.isPass] at hq
        | wrongId dd mms => simp only [runAll, List.append_eq, hvq, hrest.1, List.map_cons]
        | timeout mms => simp only [runAll, List.append_eq, hvq, hrest.1, List.map_cons]
      · intro o ho
        simp only [List.map_cons, List.mem_cons] at ho
        cases ho with
        | inl h => subst h; exact houtcome
        | inr h => exact hrest.2 o (by simpa using h)

/-- A recipe whose verification read completes immediately with 0x48. -/
def passRecipe : RecipeRun := ⟨[true], fun _ => 0x40, fun _ => 0x48⟩

/-- A recipe whose verification read never completes (all-zero status). -/
def failRecipe : RecipeRun := ⟨[true], fun _ => 0x00, fun _ => 0x00⟩

/-- Witness for C1: with a timing-out recipe followed by a passing one, the
loop reports the passing recipe at position 1. -/
theorem runAll_first_pass_spec_witness :
    runAll ([failRecipe] ++ passRecipe :: []) =
      .inl ([failRecipe].length, .pass 0x48 10) := by
  have h := runAll_first_pass_spec.1 [failRecipe] passRecipe [] 0x48 10
    (by intro q hq
        simp only [List.mem_singleton] at hq
        subst hq
        decide)
    (by decide)
  exact h.1

/-- Claim C6: a recipe's steps run strictly in order and the inner loop
aborts at the first step that raises (`false`): exactly the steps up to and
including it execute, none after it. The error is contained: the loop still
records the recipe's (non-passing) verification outcome as a failure and the
very next recipe is attempted, instead of the whole bring-up aborting. -/
theorem recipe_error_containment :
    (∀ pre post, (∀ s ∈ pre, s = true) →
      executedSteps (pre ++ false :: post) = pre.length + 1) ∧
    (∀ r rest, (verifyOutcome r).isPass = false →
      runAll (r :: rest) = (match runAll rest with
        | .inl (i, o) => .inl (i + 1, o)
        | .inr fs => .inr (verifyOutcome r :: fs)) ∧
      runTrace (r :: rest) = executedSteps r.steps :: runTrace rest) := by
  constructor
  · intro pre
    induction pre with
    | nil => intro post _; simp [executedSteps]
    | cons s pre ih =>
      intro post hall
      have hs : s = true := hall s (by simp)
      subst hs
      have := ih post (fun t ht => hall t (by simp [ht]))
      simp only [List.cons_append, List.append_eq, executedSteps, if_true, this,
        List.length_cons]
      omega
  · intro r rest hq
    cases hvq : verifyOutcome r with
    | pass dd mms => rw [hvq] at hq; simp [SeqOutcome.isPass] at hq
    | wrongId dd mms =>
      constructor
      · simp only [runAll, hvq]
      · simp only [runTrace, hvq]
    | timeout mms =>
      constructor
      · simp only [runAll, hvq]
      · simp only [runTrace, hvq]

/-- A recipe whose second step raises (third never runs) and whose
verification read times out. -/
def errorRecipe : RecipeRun := ⟨[true, false, true], fun _ => 0x00, fun _ => 0x00⟩

/-- Witness for C6: the erroring recipe executes exactly its first two steps
and the loop still attempts the passing recipe that follows it. -/
theorem recipe_error_containment_witness :
    executedSteps ([true] ++ false :: [true]) = [true].length + 1 ∧
    runTrace (errorRecipe :: [passRecipe]) =
      executedSteps errorRecipe.steps :: runTrace [passRecipe] := by
  constructor
  · exact recipe_error_containment.1 [true] [true] (by intro s hs; simpa using hs)
  · exact (recipe_error_containment.2 errorRecipe [passRecipe] (by decide)).2

/-! ## Reset handler and the bank cache (`test-all-sensors-debug.py`)

STEP 1 (lines 160-171) issues the device reset:

    set_bank(0)
    write_and_verify(PWR_MGMT_1, 0x80, ...)   # reset pulse
    time.sleep(0.1)
    write_and_verify(PWR_MGMT_1, 0x01, ...)   # wake, auto clock
    time.sleep(0.01)

`set_bank` is the cached one embedded above; `current_bank` is a module
global that nothing in the script ever resets to `None`. The state below is
the cache together with the full trace of `(register, value)` bus writes. -/

/-- `set_bank` of `test-all-sensors-debug.py` acting on cache plus write
trace. -/
def dbg_set_bank (st : Option Nat × List (Nat × Nat)) (bank : Nat) :
    Option Nat × List (Nat × Nat) :=
  let (cache, writes) := set_bank_cached st.1 bank
  (cache, st.2 ++ writes.map (fun v => (REG_BANK_SEL, v)))

/-- `write_reg` of `test-all-sensors-debug.py`: one raw bus write, cache
untouched. (`write_and_verify` wraps it with a readback that issues no
writes.) -/
def dbg_write_reg (st : Option Nat × List (Nat × Nat)) (reg value : Nat) :
    Option Nat × List (Nat × Nat) :=
  (st.1, st.2 ++ [(reg, value)])

/-- Embedding of STEP 1 of `test-all-sensors-debug.py`: the device-reset
handler (bank select 0, reset pulse 0x80, wake 0x01). -/
def step1_reset (st : Option Nat × List (Nat × Nat)) :
    Option Nat × List (Nat × Nat) :=
  dbg_write_reg (dbg_write_reg (dbg_set_bank st 0) PWR_MGMT_1 0x80) PWR_MGMT_1 0x01

/-- Counterexample to C7: starting from the script's initial state
(`current_bank = None`), after the reset handler the cache still holds bank 0
— it is not invalidated — and a subsequent bank-select call for bank 0 issues
no underlying write at all. -/
theorem step1_reset_no_invalidation :
    (step1_reset (none, [])).1 = some 0 ∧
    (dbg_set_bank (step1_reset (none, [])) 0).2 = (step1_reset (none, [])).2 := by
  decide

/-- Claim C7 as amended: the reset handler does not invalidate the cached
bank; from any prior state it leaves the cache at bank 0 (the bank it selects
to issue the reset), so a bank-select call for bank 0 after the reset issues
no underlying write, while a call for any other bank issues exactly one write
of `n << 4`. -/
theorem step1_reset_cache_behavior (st : Option Nat × List (Nat × Nat)) :
    (step1_reset st).1 = some 0 ∧
    (dbg_set_bank (step1_reset st) 0).2 = (step1_reset st).2 ∧
    (∀ n, n ≠ 0 →
      (dbg_set_bank (step1_reset st) n).2 =
        (step1_reset st).2 ++ [(REG_BANK_SEL, n <<< 4)]) := by
  have hcache : (step1_reset st).1 = some 0 := by
    by_cases h : st.1 = some 0 <;>
      simp [step1_reset, dbg_set_bank, dbg_write_reg, set_bank_cached, h]
  refine ⟨hcache, ?_, ?_⟩
  · simp [dbg_set_bank, set_bank_cached, hcache]
  · intro n hn
    have hn' : ¬(0 = n) := fun h => hn h.symm
    simp [dbg_set_bank, set_bank_cached, hcache, hn']

/-- Witness for C7's amended claim: after a reset issued from the initial
state, selecting bank 3 appends exactly one bank-select write of 0x30. -/
theorem step1_reset_cache_behavior_witness :
    (dbg_set_bank (step1_reset (none, [])) 3).2 =
      (step1_reset (none, [])).2 ++ [(REG_BANK_SEL, 3 <<< 4)] :=
  (step1_reset_cache_behavior (none, [])).2.2 3 (by decide)

/-! ## One-shot write transactions

`simple-mag-test.py` lines 150-161 (`write_mag_reg_via_slv4`) and
`test-all-sensors-i2c-master.py` lines 89-102 (`test_slv4_write`). Both are
embedded as the list of `(register, value)` writes they issue to the
ICM20948 up to and including the enable write(s); `set_bank(3)` in these two
scripts has no cache and always writes the bank-select register. -/

/-- Embedding of `write_mag_reg_via_slv4` from `simple-mag-test.py`: bank 3,
address field without the read bit, register offset, data-out byte, then the
single enable write. -/
def write_mag_reg_via_slv4 (mag_reg value : Nat) : List (Nat × Nat) :=
  [(REG_BANK_SEL, 3 <<< 4),
   (I2C_SLV4_ADDR, AK09916_I2C_ADDR),
   (I2C_SLV4_REG, mag_reg),
   (I2C_SLV4_DO, value),
   (I2C_SLV4_CTRL, BIT_SLAVE_EN)]

/-- Embedding of the write sequence of `test_slv4_write` from
`test-all-sensors-i2c-master.py` (the poll loop that follows is the one
modelled by `slv4Poll`): the malformed first phase — two control-register
writes before any data-out write — followed by the corrected second phase. -/
def test_slv4_write_trace (addr reg value : Nat) : List (Nat × Nat) :=
  [(REG_BANK_SEL, 3 <<< 4),
   (I2C_SLV4_ADDR, addr),
   (I2C_SLV4_REG, reg),
   (I2C_SLV4_CTRL, 0x80),
   (I2C_SLV4_CTRL, 0x80 ||| value),
   (REG_BANK_SEL, 3 <<< 4),
   (I2C_SLV4_ADDR, addr),
   (I2C_SLV4_REG, reg),
   (I2C_SLV4_DO, value),
   (I2C_SLV4_CTRL, 0x80)]

/-- Number of writes a trace makes to a given register. -/
def writesTo (t : List (Nat × Nat)) (reg : Nat) : Nat :=
  (t.filter (fun w => w.1 = reg)).length

/-- Index of the first write to a given register in a trace. -/
def firstWriteIdx (t : List (Nat × Nat)) (reg : Nat) : Nat :=
  t.findIdx (fun w => w.1 = reg)

/-- Claim C8 (code bug, evaluated at the failing input): the soft-reset call
`test_slv4_write(0x0C, 0x32, 0x01)` issues three control-register writes, the
first of them before any data-out write — contradicting the single-phase
protocol (and the script's own `This is wrong` comment) — whereas the
corresponding `write_mag_reg_via_slv4(0x32, 0x01)` issues exactly one enable
write of 0x80, after the data-out write. -/
theorem test_slv4_write_two_phase_anomaly :
    writesTo (test_slv4_write_trace 0x0C 0x32 0x01) I2C_SLV4_CTRL = 3 ∧
    firstWriteIdx (test_slv4_write_trace 0x0C 0x32 0x01) I2C_SLV4_CTRL <
      firstWriteIdx (test_slv4_write_trace 0x0C 0x32 0x01) I2C_SLV4_DO ∧
    writesTo (write_mag_reg_via_slv4 0x32 0x01) I2C_SLV4_CTRL = 1 ∧
    firstWriteIdx (write_mag_reg_via_slv4 0x32 0x01) I2C_SLV4_DO <
      firstWriteIdx (write_mag_reg_via_slv4 0x32 0x01) I2C_SLV4_CTRL ∧
    (write_mag_reg_via_slv4 0x32 0x01).getLast? = some (I2C_SLV4_CTRL, 0x80) := by
  decide

/-! ## Mirrored-buffer snapshot validity

`test-all-sensors-i2c-master.py` lines 249-274: each 9-byte snapshot read
from `EXT_SENS_DATA_00` is decoded only when bit 0 of its first byte (ST1)
is set; inside that branch the three axis words are decoded little-endian
and an overflow warning is printed when bit 3 of byte 7 (ST2) is set. -/

/-- Embedding of the per-sample ST1/ST2 handling: returns whether the
snapshot is counted valid, whether an overflow is reported, and the decoded
sample if any. -/
def processSnapshot (mag_data : List Nat) : Bool × Bool × Option (Int × Int × Int) :=
  let st1 := mag_data.getD 0 0
  if st1 &&& 0x01 ≠ 0 then
    let mx := toSigned16 (mag_data.getD 2 0) (mag_data.getD 1 0)
    let my := toSigned16 (mag_data.getD 4 0) (mag_data.getD 3 0)
    let mz := toSigned16 (mag_data.getD 6 0) (mag_data.getD 5 0)
    let st2 := mag_data.getD 7 0
    (true, st2 &&& 0x08 != 0, some (mx, my, mz))
  else
    (false, false, none)

/-- Counterexample to C9: a snapshot whose ST2 byte has bit 3 set but whose
ST1 byte has bit 0 clear reports no overflow, so "overflow is reported iff
bit 3 of ST2 is set" fails as an unconditional iff. -/
theorem processSnapshot_overflow_not_unconditional :
    (List.getD [0x00, 0, 0, 0, 0, 0, 0, 0x08, 0] 7 0) &&& 0x08 ≠ 0 ∧
    (processSnapshot [0x00, 0, 0, 0, 0, 0, 0, 0x08, 0]).2.1 = false := by
  decide

/-- Claim C9 as amended: a snapshot is counted as a valid sample iff bit 0 of
its first byte (ST1) is set; an overflow is reported iff the snapshot is
valid AND bit 3 of its ST2 byte is set (the overflow check runs only inside
the data-ready branch); a snapshot with bit 0 clear contributes no decoded
sample. -/
theorem processSnapshot_spec (d : List Nat) :
    ((processSnapshot d).1 = true ↔ (d.getD 0 0) &&& 0x01 ≠ 0) ∧
    ((processSnapshot d).2.1 = true ↔
      ((d.getD 0 0) &&& 0x01 ≠ 0 ∧ (d.getD 7 0) &&& 0x08 ≠ 0)) ∧
    ((d.getD 0 0) &&& 0x01 = 0 → (processSnapshot d).2.2 = none) := by
  by_cases h : (d.getD 0 0) &&& 0x01 ≠ 0
  · have he : processSnapshot d =
        (true, d.getD 7 0 &&& 0x08 != 0,
          some (toSigned16 (d.getD 2 0) (d.getD 1 0),
                toSigned16 (d.getD 4 0) (d.getD 3 0),
                toSigned16 (d.getD 6 0) (d.getD 5 0))) := by
      simp only [processSnapshot]
      rw [if_pos h]
    rw [he]
    refine ⟨iff_of_true rfl h, ?_, fun h0 => (h h0).elim⟩
    constructor
    · intro hb
      exact ⟨h, by simpa [bne_iff_ne] using hb⟩
    · intro hb
      simpa [bne_iff_ne] using hb.2
  · have he : processSnapshot d = (false, false, none) := by
      simp only [processSnapshot]
      rw [if_neg h]
    rw [he]
    exact ⟨iff_of_false (by simp) h,
           iff_of_false (by simp) (fun hc => h hc.1),
           fun _ => rfl⟩

/-- Witness for C9's amended claim: a ready snapshot with overflow set is
counted valid, reports overflow, and decodes a sample. -/
theorem processSnapshot_spec_witness :
    (processSnapshot [0x01, 0, 0, 0, 0, 0, 0, 0x08, 0]).1 = true ∧
    (processSnapshot [0x01, 0, 0, 0, 0, 0, 0, 0x08, 0]).2.1 = true := by
  have h := processSnapshot_spec [0x01, 0, 0, 0, 0, 0, 0, 0x08, 0]
  exact ⟨h.1.mpr (by decide), h.2.1.mpr (by decide)⟩
